import Mathlib

/-!
# Verification of `convert_csv_autoint.py` (Adults-Income-Predictive-Analysis)

Shallow embedding of the CSV auto-integer coercion script.  The script reads a
CSV with `pd.read_csv(in_path, skipinitialspace=True, dtype=str)`, so every
cell is either NaN (empty field) or a text value with the spaces following the
delimiter stripped.  Per column it runs `safe_object_to_numeric_int64`
(replace `?` by NaN, `pd.to_numeric(..., errors='coerce')`, then
`is_integer_like` and `.round(0).astype('Int64')`), falls back to a second
numeric attempt, and finally writes a one-time backup (a re-serialization of
the parsed input dataframe) and the output file.

Numbers parsed from text are modelled as exact rationals `ℚ` in place of IEEE
doubles: every constant appearing in the development (cell values such as
`1`, `2.5`, tolerances `1e-8`, `1e-5`, and the probe `3 - 1e-12`) is
represented exactly, and all comparisons made by the code sit at distance
far greater than double rounding error (about `1e-16`) from their thresholds,
so the rational model and the float computation decide every check the same
way on the inputs considered here.
-/

namespace AdultCsv

/-! ## Text-level primitives -/

/-- `skipinitialspace=True`: the spaces that follow the field delimiter are
dropped from the front of the raw field text. -/
def dropLeadingSpaces (s : String) : String :=
  String.mk (s.toList.dropWhile (fun c => c = ' '))

/-- One raw CSV field as seen by `pd.read_csv(..., skipinitialspace=True,
dtype=str)`: leading spaces are skipped and an empty field is NaN (`none`);
everything else stays text. -/
def readField (s : String) : Option String :=
  if dropLeadingSpaces s = "" then none else some (dropLeadingSpaces s)

/-- Whitespace trimming on character lists (used by numeric text parsing,
which ignores surrounding whitespace). -/
def trimSpaces (cs : List Char) : List Char :=
  ((cs.dropWhile Char.isWhitespace).reverse.dropWhile Char.isWhitespace).reverse

/-- Numeric value of a decimal digit character. -/
def digitVal (c : Char) : ℕ := c.toNat - 48

/-- Value of a big-endian list of decimal digit characters. -/
def digitsToNat (cs : List Char) : ℕ :=
  cs.foldl (fun a c => 10 * a + digitVal c) 0

/-- Core of `pd.to_numeric(..., errors='coerce')` on one already-trimmed text:
an optional sign, an integer part and an optional fractional part, all in
decimal.  Anything else (for example `Private` or `?`) fails to `none`.
Exotic float spellings (exponents, `inf`, `nan`) do not occur in this dataset
and are outside the modelled fragment. -/
def parseNumChars (cs0 : List Char) : Option ℚ :=
  let neg : Bool := cs0.head? = some '-'
  let cs : List Char :=
    if cs0.head? = some '-' ∨ cs0.head? = some '+' then cs0.tail else cs0
  let ip := cs.takeWhile (fun c => c ≠ '.')
  let tl := cs.dropWhile (fun c => c ≠ '.')
  -- `tl` is empty (no decimal point) or starts with the decimal point, in
  -- which case `tl.tail` is the fractional digit block and must be digits
  if tl = [] ∨ tl.tail.all Char.isDigit then
    if ip.all Char.isDigit && !(ip.isEmpty && tl.tail.isEmpty) then
      let v : ℚ :=
        (digitsToNat ip : ℚ) + (digitsToNat tl.tail : ℚ) / 10 ^ tl.tail.length
      some (if neg then -v else v)
    else none
  else none

/-- `pd.to_numeric(..., errors='coerce')` on one cell text. -/
def parseNum (s : String) : Option ℚ := parseNumChars (trimSpaces s.toList)

/-! ## The coercion heuristic (`convert_csv_autoint.py`) -/

/-- `col.replace('?', np.nan)` followed by `pd.to_numeric(..,
errors='coerce')`, at the level of one cell:  NaN stays NaN, a literal `?`
becomes NaN, and any other text is parsed (unparseable text coerces to NaN). -/
def coerceCell (c : Option String) : Option ℚ :=
  match c with
  | none => none
  | some s => if s = "?" then none else parseNum s

/-- `np.modf(x)[0]`: the fractional part of `x`, taken toward zero (it carries
the sign of `x`). -/
def ratTrunc (x : ℚ) : ℤ := if 0 ≤ x then ⌊x⌋ else ⌈x⌉

/-- Fractional part produced by `np.modf`. -/
def fracPart (x : ℚ) : ℚ := x - ratTrunc x

/-- `np.isclose(a, b)` with numpy's default tolerances
`atol = 1e-8`, `rtol = 1e-5`:  `|a - b| <= atol + rtol * |b|`. -/
def isclose (a b : ℚ) : Bool :=
  decide (|a - b| ≤ 1 / 100000000 + 1 / 100000 * |b|)

/-- `is_integer_like(series)` from `convert_csv_autoint.py`.  The series it
receives in this program is always the output of `pd.to_numeric`, hence of
numeric dtype, so the `is_numeric_dtype` guard of the source is always
satisfied and the series is modelled as `List (Option ℚ)` (NaN = `none`).
`dropna` is `filterMap id`; the empty-after-dropna case returns `True`. -/
def is_integer_like (series : List (Option ℚ)) : Bool :=
  if series.isEmpty then false
  else
    let s := series.filterMap id
    if s.isEmpty then true
    else s.all (fun x => isclose (fracPart x) 0)

/-- `Series.round(0)` (numpy rounding, half to even) on one value. -/
def roundHalfEven (x : ℚ) : ℤ :=
  let n := ⌊x⌋
  let d := x - n
  if d < 1 / 2 then n
  else if 1 / 2 < d then n + 1
  else if n % 2 = 0 then n else n + 1

/-- `safe_object_to_numeric_int64(col)` from `convert_csv_autoint.py`.  Under
`dtype=str` every column has dtype kind `'O'`, so the initial dtype test
passes.  The `orig_na` mask computed by the source is never used afterwards
(dead code) and therefore does not appear here.  On success the result is the
`Int64` (nullable-integer) column. -/
def safe_object_to_numeric_int64 (col : List (Option String)) :
    Option (List (Option ℤ)) :=
  let coerced := col.map coerceCell
  if is_integer_like coerced then some (coerced.map (Option.map roundHalfEven))
  else none

/-- A cell of the processed dataframe `df_proc`: an `Int64` column holds
integers and `<NA>`, an untouched object column holds text and NaN. -/
inductive OutCell where
  | na : OutCell
  | int : ℤ → OutCell
  | str : String → OutCell
deriving DecidableEq

/-- An original (string-dtype) cell viewed as a processed cell (untouched
column). -/
def outCellOfOrig : Option String → OutCell
  | none => OutCell.na
  | some s => OutCell.str s

/-- A nullable-integer cell viewed as a processed cell. -/
def outCellOfInt : Option ℤ → OutCell
  | none => OutCell.na
  | some n => OutCell.int n

/-- The per-column body of `main`'s loop: first `safe_object_to_numeric_int64`,
then the fallback numeric attempt (under `dtype=str` the column kind is `'O'`,
so `s_num = pd.to_numeric(s.replace('?', np.nan), errors='coerce')`, which is
of numeric dtype, and the `.replace` raises nothing, so the `except` branch is
dead).  Returns the resulting column and whether it was recorded in
`converted_cols`. -/
def processColumn (col : List (Option String)) : List OutCell × Bool :=
  match safe_object_to_numeric_int64 col with
  | some ints => (ints.map outCellOfInt, true)
  | none =>
    let s_num := col.map coerceCell
    if is_integer_like s_num then
      (s_num.map (fun c => outCellOfInt (Option.map roundHalfEven c)), true)
    else
      (col.map outCellOfOrig, false)

/-- The whole column loop of `main`: the processed table (columns in order)
together with `converted_cols` (the names appended as columns convert). -/
def coerceTable (cols : List (String × List (Option String))) :
    List (String × List OutCell) × List String :=
  (cols.map (fun nc => (nc.1, (processColumn nc.2).1)),
   (cols.filter (fun nc => (processColumn nc.2).2)).map Prod.fst)

/-! ## Files and `main` -/

/-- Decimal digit characters of a natural number (big-endian), as pandas
prints `Int64` values to CSV. -/
def natDigits (n : ℕ) : List Char :=
  if h : n < 10 then [Nat.digitChar n]
  else
    have : n / 10 < n := Nat.div_lt_self (by omega) (by omega)
    natDigits (n / 10) ++ [Nat.digitChar (n % 10)]

/-- Decimal rendering of an integer (big-endian digits, `-` sign). -/
def intReprChars (n : ℤ) : List Char :=
  if n < 0 then '-' :: natDigits n.natAbs else natDigits n.natAbs

/-- `to_csv` rendering of one processed cell: a missing value prints as the
empty field, an `Int64` value in decimal, a text cell verbatim. -/
def renderOutCell : OutCell → String
  | OutCell.na => ""
  | OutCell.int n => String.mk (intReprChars n)
  | OutCell.str s => s

/-- `to_csv` rendering of one original (string-dtype) cell. -/
def renderOrigCell : Option String → String
  | none => ""
  | some s => s

/-- The string-dtype cell that `read_csv` recovers from a written processed
cell: `<NA>` becomes an empty field (NaN), an integer its decimal text, a
text cell itself. -/
def outToOrig : OutCell → Option String
  | OutCell.na => none
  | OutCell.int n => some (String.mk (intReprChars n))
  | OutCell.str s => some s

/-- Number of rows of a processed table (all columns share it). -/
def numRowsProc (cols : List (String × List OutCell)) : ℕ :=
  match cols with
  | [] => 0
  | c :: _ => c.2.length

/-- Number of rows of an original (string-dtype) table. -/
def numRowsOrig (cols : List (String × List (Option String))) : ℕ :=
  match cols with
  | [] => 0
  | c :: _ => c.2.length

/-- `df_proc.to_csv(out_path, index=False)`: header row of column names, then
one record per row. -/
def toCSVproc (cols : List (String × List OutCell)) : List (List String) :=
  (cols.map Prod.fst) ::
    (List.range (numRowsProc cols)).map (fun i =>
      cols.map (fun c => renderOutCell (c.2.getD i OutCell.na)))

/-- `df.to_csv(bak, index=False)`: re-serialization of the parsed input
dataframe (used for the backup — the source writes the dataframe out again,
it does not copy the input file's bytes). -/
def toCSVdf (cols : List (String × List (Option String))) : List (List String) :=
  (cols.map Prod.fst) ::
    (List.range (numRowsOrig cols)).map (fun i =>
      cols.map (fun c => renderOrigCell (c.2.getD i none)))

/-- `pd.read_csv(path, skipinitialspace=True, dtype=str)` on a rectangular
CSV: the first record is the header, the rest are rows; column `j` collects
field `j` of every row through `readField`.  (Pandas also renames empty
header fields to `Unnamed: k`; no claim touches header naming, so names are
kept as read, modulo `skipinitialspace`.) -/
def readCSV (raw : List (List String)) : List (String × List (Option String)) :=
  match raw with
  | [] => []
  | header :: body =>
    (List.range header.length).map (fun j =>
      (dropLeadingSpaces (header.getD j ""),
       body.map (fun r => readField (r.getD j ""))))

/-- The bytes of a CSV file: comma-separated fields, one record per
newline-terminated line. -/
def renderCSV (rows : List (List String)) : String :=
  String.join (rows.map (fun r => String.intercalate "," r ++ "\n"))

/-- The file system visible to the script: each path holds a CSV (as its
records), or nothing. -/
abbrev FileSys : Type := String → Option (List (List String))

/-- Writing one file. -/
def fsUpdate (fs : FileSys) (p : String) (v : List (List String)) : FileSys :=
  fun q => if q = p then some v else fs q

/-- Observable outcome of one run of the script: the file system afterwards,
the exit status, and the reported `converted_cols`. -/
structure RunResult where
  fs : FileSys
  exitCode : ℕ
  converted : List String

/-- `main()` of `convert_csv_autoint.py` with explicit paths.  A missing
input prints an error and exits with status 1 touching nothing.  Otherwise
the table is read, coerced, and — when overwriting the input — a backup of
the re-serialized input dataframe is written to `<out>.bak` unless that path
already exists (`Path.with_suffix(suffix + '.bak')` appends `.bak` to the
name); finally the processed table is written to the output path and the run
exits with status 0. -/
def mainRun (inPath outPath : String) (fs : FileSys) : RunResult :=
  match fs inPath with
  | none => ⟨fs, 1, []⟩
  | some raw =>
    let df := readCSV raw
    let proc := coerceTable df
    let fs1 : FileSys :=
      if outPath = inPath then
        match fs (outPath ++ ".bak") with
        | some _ => fs
        | none => fsUpdate fs (outPath ++ ".bak") (toCSVdf df)
      else fs
    ⟨fsUpdate fs1 outPath (toCSVproc proc.1), 0, proc.2⟩

/-! ## Spec-side notions (for comparison with the code) -/

/-- Spec-side reading of the Float classification of §4.1: the column was
reported changed and every cell was rewritten away from its textual form
(no cell of the result is still a text cell). -/
def specFloatRewritten (r : List OutCell × Bool) : Prop :=
  r.2 = true ∧ ∀ c ∈ r.1, ∀ s, c ≠ OutCell.str s

/-- A missing marker per the spec's glossary, as a post-`read_csv` cell: an
empty field (NaN) or a `?` possibly padded with whitespace. -/
def isMissingMarker (c : Option String) : Bool :=
  match c with
  | none => true
  | some s => trimSpaces s.toList = ['?']

/-! ## Concrete file systems used in counterexamples and witnesses -/

/-- A file system holding one CSV whose single data cell is `?` preceded by a
space that `skipinitialspace` will eat. -/
def fsC4 : FileSys := fun p => if p = "in.csv" then some [["a"], [" ?"]] else none

/-- A file system holding one CSV with a single integer column. -/
def fsC5 : FileSys := fun p => if p = "t.csv" then some [["a"], ["1"]] else none

/-! ## Helper lemmas -/

lemma dropWhile_idem {α} (p : α → Bool) (l : List α) :
    (l.dropWhile p).dropWhile p = l.dropWhile p := by
  induction l with
  | nil => rfl
  | cons a t ih =>
    by_cases h : p a
    · simp [List.dropWhile_cons, h, ih]
    · simp [List.dropWhile_cons, h]

lemma dropWhile_eq_self {α} (p : α → Bool) (l : List α)
    (h : ∀ a ∈ l, p a = false) : l.dropWhile p = l := by
  cases l with
  | nil => rfl
  | cons a t => simp [List.dropWhile_cons, h a (List.mem_cons_self a t)]

lemma dropLeadingSpaces_idem (s : String) :
    dropLeadingSpaces (dropLeadingSpaces s) = dropLeadingSpaces s := by
  unfold dropLeadingSpaces
  exact congrArg String.mk (dropWhile_idem _ _)

lemma readField_idem {s t : String} (h : readField s = some t) :
    readField t = some t := by
  unfold readField at h ⊢
  by_cases h1 : dropLeadingSpaces s = ""
  · rw [if_pos h1] at h
    exact absurd h (by simp)
  · rw [if_neg h1] at h
    injection h with ht
    subst ht
    rw [dropLeadingSpaces_idem, if_neg h1]

lemma trimSpaces_eq_self (cs : List Char)
    (h : ∀ c ∈ cs, c.isWhitespace = false) : trimSpaces cs = cs := by
  unfold trimSpaces
  rw [dropWhile_eq_self _ _ h, dropWhile_eq_self, List.reverse_reverse]
  intro a ha
  exact h a (List.mem_reverse.1 ha)

lemma coerceCell_of_missingMarker {c : Option String}
    (h : isMissingMarker c = true) : coerceCell c = none := by
  cases c with
  | none => rfl
  | some s =>
    simp only [isMissingMarker, decide_eq_true_eq] at h
    by_cases hq : s = "?"
    · simp [coerceCell, hq]
    · have hc : coerceCell (some s) = parseNum s := by simp [coerceCell, hq]
      rw [hc]
      unfold parseNum
      rw [h]
      with_unfolding_all decide

lemma is_integer_like_all_none {series : List (Option ℚ)}
    (hne : series ≠ []) (h : ∀ x ∈ series, x = none) :
    is_integer_like series = true := by
  unfold is_integer_like
  have h1 : series.isEmpty = false := by simpa [List.isEmpty_iff] using hne
  have h2 : series.filterMap id = [] := by
    rw [List.filterMap_eq_nil_iff]
    intro a ha
    simpa using h a ha
  simp [h1, h2]

lemma is_integer_like_eq_false_of_bad {series : List (Option ℚ)} {q : ℚ}
    (hq : some q ∈ series) (hbad : isclose (fracPart q) 0 = false) :
    is_integer_like series = false := by
  unfold is_integer_like
  have h1 : series.isEmpty = false := by
    simpa [List.isEmpty_iff] using List.ne_nil_of_mem hq
  have hmem : q ∈ series.filterMap id := List.mem_filterMap.2 ⟨some q, hq, rfl⟩
  have h2 : (series.filterMap id).isEmpty = false := by
    simpa [List.isEmpty_iff] using List.ne_nil_of_mem hmem
  have h3 : (series.filterMap id).all (fun x => isclose (fracPart x) 0) = false := by
    rw [List.all_eq_false]
    exact ⟨q, hmem, by simp [hbad]⟩
  simp [h1, h2, h3]

lemma digitChar_isDigit {d : ℕ} (h : d < 10) : (Nat.digitChar d).isDigit = true := by
  interval_cases d <;> decide

lemma digitVal_digitChar {d : ℕ} (h : d < 10) : digitVal (Nat.digitChar d) = d := by
  interval_cases d <;> decide

lemma isDigit_props {c : Char} (h : c.isDigit = true) :
    c.isWhitespace = false ∧ c ≠ '-' ∧ c ≠ '+' ∧ c ≠ '.' ∧ c ≠ ' ' ∧ c ≠ '?' := by
  refine ⟨?_, ?_, ?_, ?_, ?_, ?_⟩
  · by_contra hw
    rw [Bool.not_eq_false] at hw
    have hcases : ((c = ' ' ∨ c = '\t') ∨ c = '\x0d') ∨ c = '\n' := by
      simpa [Char.isWhitespace] using hw
    rcases hcases with ((rfl | rfl) | rfl) | rfl <;> exact absurd h (by decide)
  · intro heq
    rw [heq] at h
    exact absurd h (by decide)
  · intro heq
    rw [heq] at h
    exact absurd h (by decide)
  · intro heq
    rw [heq] at h
    exact absurd h (by decide)
  · intro heq
    rw [heq] at h
    exact absurd h (by decide)
  · intro heq
    rw [heq] at h
    exact absurd h (by decide)

lemma natDigits_ne_nil (n : ℕ) : natDigits n ≠ [] := by
  rw [natDigits]
  by_cases h : n < 10 <;> simp [h]

lemma natDigits_all_digit (n : ℕ) : ∀ c ∈ natDigits n, c.isDigit = true := by
  induction n using Nat.strong_induction_on with
  | _ n ih =>
    rw [natDigits]
    by_cases h : n < 10
    · simp only [h, dif_pos, List.mem_singleton]
      intro c hc
      rw [hc]
      exact digitChar_isDigit h
    · simp only [h, dif_neg, not_false_iff, List.mem_append, List.mem_singleton]
      intro c hc
      rcases hc with hc | hc
      · exact ih (n / 10) (Nat.div_lt_self (by omega) (by omega)) c hc
      · rw [hc]
        exact digitChar_isDigit (Nat.mod_lt n (by omega))

lemma digitsToNat_append_one (l : List Char) (c : Char) :
    digitsToNat (l ++ [c]) = 10 * digitsToNat l + digitVal c := by
  unfold digitsToNat
  rw [List.foldl_append]
  rfl

lemma digitsToNat_natDigits (n : ℕ) : digitsToNat (natDigits n) = n := by
  induction n using Nat.strong_induction_on with
  | _ n ih =>
    rw [natDigits]
    by_cases h : n < 10
    · simp only [h, dif_pos]
      show 10 * 0 + digitVal (Nat.digitChar n) = n
      rw [digitVal_digitChar h]
      omega
    · simp only [h, dif_neg, not_false_iff]
      rw [digitsToNat_append_one,
        ih (n / 10) (Nat.div_lt_self (by omega) (by omega)),
        digitVal_digitChar (Nat.mod_lt n (by omega))]
      omega

lemma takeWhile_ne_dot_of_digits {l : List Char}
    (hd : ∀ c ∈ l, c.isDigit = true) :
    l.takeWhile (fun c => c ≠ '.') = l := by
  rw [List.takeWhile_eq_self_iff]
  intro c hc
  simp [(isDigit_props (hd c hc)).2.2.2.1]

lemma dropWhile_ne_dot_of_digits {l : List Char}
    (hd : ∀ c ∈ l, c.isDigit = true) :
    l.dropWhile (fun c => c ≠ '.') = [] := by
  rw [List.dropWhile_eq_nil_iff]
  intro c hc
  simp [(isDigit_props (hd c hc)).2.2.2.1]

lemma parseNumChars_digits {l : List Char} (hne : l ≠ [])
    (hd : ∀ c ∈ l, c.isDigit = true) :
    parseNumChars l = some (digitsToNat l : ℚ) := by
  obtain ⟨c, t, rfl⟩ := List.exists_cons_of_ne_nil hne
  have hprops := isDigit_props (hd c (List.mem_cons_self c t))
  have hcond : ¬((c :: t).head? = some '-' ∨ (c :: t).head? = some '+') := by
    simp only [List.head?_cons, Option.some.injEq, not_or]
    exact ⟨hprops.2.1, hprops.2.2.1⟩
  have hnegf : (decide ((c :: t).head? = some '-')) = false := by
    simp [List.head?_cons, hprops.2.1]
  simp only [parseNumChars]
  rw [if_neg hcond, takeWhile_ne_dot_of_digits hd, dropWhile_ne_dot_of_digits hd]
  rw [if_pos (Or.inl rfl)]
  have hall : (c :: t).all Char.isDigit = true := List.all_eq_true.2 hd
  simp only [hall, List.isEmpty_cons, Bool.false_and, Bool.and_false,
    Bool.not_false, Bool.true_and, if_pos, hnegf, Bool.false_eq_true,
    if_false, List.tail_nil]
  norm_num
  rfl

lemma parseNumChars_neg_digits {l : List Char} (hne : l ≠ [])
    (hd : ∀ c ∈ l, c.isDigit = true) :
    parseNumChars ('-' :: l) = some (-(digitsToNat l : ℚ)) := by
  have hcs : (if ('-' :: l).head? = some '-' ∨ ('-' :: l).head? = some '+'
      then ('-' :: l).tail else ('-' :: l)) = l := by
    rw [if_pos (Or.inl (show ('-' :: l).head? = some '-' from rfl))]
    rfl
  simp only [parseNumChars, hcs]
  rw [takeWhile_ne_dot_of_digits hd, dropWhile_ne_dot_of_digits hd]
  rw [if_pos (Or.inl rfl)]
  have hall : l.all Char.isDigit = true := List.all_eq_true.2 hd
  obtain ⟨c, t, rfl⟩ := List.exists_cons_of_ne_nil hne
  simp only [hall, List.isEmpty_cons, Bool.and_false, Bool.not_false,
    Bool.true_and, if_pos, List.head?_cons, Option.some.injEq, decide_eq_true_eq]
  norm_num
  rfl

lemma intReprChars_not_whitespace (n : ℤ) :
    ∀ c ∈ intReprChars n, c.isWhitespace = false := by
  intro c hc
  unfold intReprChars at hc
  by_cases h : n < 0
  · rw [if_pos h] at hc
    rcases List.mem_cons.1 hc with rfl | hc
    · decide
    · exact (isDigit_props (natDigits_all_digit _ c hc)).1
  · rw [if_neg h] at hc
    exact (isDigit_props (natDigits_all_digit _ c hc)).1

lemma parseNum_intRepr (n : ℤ) :
    parseNum (String.mk (intReprChars n)) = some (n : ℚ) := by
  unfold parseNum
  have htl : (String.mk (intReprChars n)).toList = intReprChars n := rfl
  rw [htl, trimSpaces_eq_self _ (intReprChars_not_whitespace n)]
  unfold intReprChars
  by_cases h : n < 0
  · rw [if_pos h,
      parseNumChars_neg_digits (natDigits_ne_nil _) (natDigits_all_digit _),
      digitsToNat_natDigits]
    congr 1
    rw [Int.cast_natAbs, abs_of_neg h]
    push_cast
    ring
  · rw [if_neg h,
      parseNumChars_digits (natDigits_ne_nil _) (natDigits_all_digit _),
      digitsToNat_natDigits]
    congr 1
    rw [Int.cast_natAbs, abs_of_nonneg (le_of_not_lt h)]

lemma intReprChars_ne_nil (n : ℤ) : intReprChars n ≠ [] := by
  unfold intReprChars
  by_cases h : n < 0
  · simp [h]
  · simp [h, natDigits_ne_nil]

lemma intRepr_ne_qmark (n : ℤ) : String.mk (intReprChars n) ≠ "?" := by
  intro he
  have hdata : intReprChars n = ['?'] := congrArg String.data he
  unfold intReprChars at hdata
  by_cases h : n < 0
  · rw [if_pos h] at hdata
    have hh := congrArg List.head? hdata
    simp at hh
  · rw [if_neg h] at hdata
    have hmem : '?' ∈ natDigits n.natAbs := by
      rw [hdata]
      exact List.mem_singleton_self '?'
    exact absurd (natDigits_all_digit n.natAbs '?' hmem) (by decide)

lemma coerceCell_intRepr (n : ℤ) :
    coerceCell (some (String.mk (intReprChars n))) = some (n : ℚ) := by
  show (if String.mk (intReprChars n) = "?" then none
    else parseNum (String.mk (intReprChars n))) = some (n : ℚ)
  rw [if_neg (intRepr_ne_qmark n), parseNum_intRepr]

lemma readField_intRepr (n : ℤ) :
    readField (String.mk (intReprChars n)) = some (String.mk (intReprChars n)) := by
  have hdw : (String.mk (intReprChars n)).toList.dropWhile (fun c => c = ' ')
      = intReprChars n := by
    have htl : (String.mk (intReprChars n)).toList = intReprChars n := rfl
    rw [htl]
    apply dropWhile_eq_self
    intro a ha
    unfold intReprChars at ha
    by_cases h : n < 0
    · rw [if_pos h] at ha
      rcases List.mem_cons.1 ha with rfl | ha
      · decide
      · simp [(isDigit_props (natDigits_all_digit _ a ha)).2.2.2.2.1]
    · rw [if_neg h] at ha
      simp [(isDigit_props (natDigits_all_digit _ a ha)).2.2.2.2.1]
  have hdls : dropLeadingSpaces (String.mk (intReprChars n))
      = String.mk (intReprChars n) := by
    unfold dropLeadingSpaces
    rw [hdw]
  have hne : String.mk (intReprChars n) ≠ "" := by
    intro he
    exact intReprChars_ne_nil n (congrArg String.data he)
  unfold readField
  rw [hdls, if_neg hne]

lemma ratTrunc_intCast (n : ℤ) : ratTrunc (n : ℚ) = n := by
  unfold ratTrunc
  by_cases h : (0 : ℚ) ≤ (n : ℚ)
  · rw [if_pos h, Int.floor_intCast]
  · rw [if_neg h, Int.ceil_intCast]

lemma fracPart_intCast (n : ℤ) : fracPart (n : ℚ) = 0 := by
  unfold fracPart
  rw [ratTrunc_intCast]
  ring

lemma isclose_fracPart_intCast (n : ℤ) : isclose (fracPart (n : ℚ)) 0 = true := by
  rw [fracPart_intCast]
  unfold isclose
  norm_num

lemma roundHalfEven_intCast (n : ℤ) : roundHalfEven (n : ℚ) = n := by
  simp only [roundHalfEven, Int.floor_intCast]
  have h0 : (n : ℚ) - (n : ℤ) = 0 := by ring
  rw [h0]
  norm_num

lemma outToOrig_outCellOfOrig (c : Option String) :
    outToOrig (outCellOfOrig c) = c := by
  cases c <;> rfl

lemma outToOrig_outCellOfInt (x : Option ℤ) :
    outToOrig (outCellOfInt x)
      = x.map (fun n : ℤ => String.mk (intReprChars n)) := by
  cases x <;> rfl

lemma coerceCell_intReprOpt (x : Option ℤ) :
    coerceCell (x.map (fun n : ℤ => String.mk (intReprChars n)))
      = x.map (fun n : ℤ => (n : ℚ)) := by
  cases x with
  | none => rfl
  | some n => exact coerceCell_intRepr n

lemma is_integer_like_isEmpty_false {series : List (Option ℚ)}
    (h : is_integer_like series = true) : series.isEmpty = false := by
  by_contra hc
  rw [Bool.not_eq_false] at hc
  unfold is_integer_like at h
  simp [hc] at h

lemma is_integer_like_of_all_isclose {series : List (Option ℚ)}
    (hne : series.isEmpty = false)
    (h : ∀ x ∈ series.filterMap id, isclose (fracPart x) 0 = true) :
    is_integer_like series = true := by
  unfold is_integer_like
  simp only [hne, Bool.false_eq_true, if_false]
  by_cases h2 : (series.filterMap id).isEmpty
  · simp [h2]
  · simp only [h2, if_neg, Bool.false_eq_true, if_false]
    exact List.all_eq_true.2 h

/-- Re-processing the re-read form of a processed column gives the same
column and the same conversion flag: the per-column coercion is idempotent on
cell values, and a converted column converts again. -/
lemma processColumn_outToOrig (col : List (Option String)) :
    processColumn ((processColumn col).1.map outToOrig) = processColumn col := by
  by_cases hint : is_integer_like (col.map coerceCell) = true
  · have hPC : processColumn col
        = (((col.map coerceCell).map (Option.map roundHalfEven)).map outCellOfInt,
           true) := by
      unfold processColumn safe_object_to_numeric_int64
      rw [if_pos hint]
    rw [hPC]
    have hfun : ∀ c : Option String,
        outToOrig (outCellOfInt (Option.map roundHalfEven (coerceCell c)))
          = Option.map (fun n : ℤ => String.mk (intReprChars n))
              (Option.map roundHalfEven (coerceCell c)) := by
      intro c
      exact outToOrig_outCellOfInt _
    have hre : (((col.map coerceCell).map (Option.map roundHalfEven)).map
          outCellOfInt).map outToOrig
        = col.map (fun c =>
            Option.map (fun n : ℤ => String.mk (intReprChars n))
              (Option.map roundHalfEven (coerceCell c))) := by
      simp only [List.map_map]
      exact List.map_congr_left (fun a _ => hfun a)
    rw [hre]
    have hco : (col.map (fun c =>
          Option.map (fun n : ℤ => String.mk (intReprChars n))
            (Option.map roundHalfEven (coerceCell c)))).map coerceCell
        = col.map (fun c =>
            Option.map (fun y : ℤ => (y : ℚ))
              (Option.map roundHalfEven (coerceCell c))) := by
      simp only [List.map_map]
      exact List.map_congr_left (fun a _ => coerceCell_intReprOpt _)
    have hint' : is_integer_like ((col.map (fun c =>
          Option.map (fun n : ℤ => String.mk (intReprChars n))
            (Option.map roundHalfEven (coerceCell c)))).map coerceCell)
        = true := by
      rw [hco]
      apply is_integer_like_of_all_isclose
      · have h1 := is_integer_like_isEmpty_false hint
        have hcol : col ≠ [] := by
          intro hc
          rw [hc] at h1
          simp at h1
        simpa [List.isEmpty_iff] using hcol
      · intro x hx
        rw [List.mem_filterMap] at hx
        obtain ⟨ox, hox, hid⟩ := hx
        rw [id_eq] at hid
        subst hid
        rw [List.mem_map] at hox
        obtain ⟨c, _, hc⟩ := hox
        rw [Option.map_eq_some'] at hc
        obtain ⟨z, hz, hzx⟩ := hc
        rw [← hzx]
        exact isclose_fracPart_intCast _
    unfold processColumn safe_object_to_numeric_int64
    rw [if_pos hint']
    dsimp only
    refine congrArg (fun l => (l, true)) ?_
    rw [hco]
    simp only [List.map_map]
    refine List.map_congr_left (fun a _ => ?_)
    cases hq : coerceCell a with
    | none => simp [Function.comp, hq]
    | some q => simp [Function.comp, hq, roundHalfEven_intCast]
  · rw [Bool.not_eq_true] at hint
    have hPC : processColumn col = (col.map outCellOfOrig, false) := by
      unfold processColumn safe_object_to_numeric_int64
      simp [hint]
    rw [hPC]
    have hre : (col.map outCellOfOrig).map outToOrig = col := by
      rw [List.map_map]
      have hcomp : (outToOrig ∘ outCellOfOrig) = id :=
        funext outToOrig_outCellOfOrig
      rw [hcomp, List.map_id]
    rw [hre, hPC]

lemma readField_renderOutCell {c : OutCell}
    (hs : ∀ s, c = OutCell.str s → readField s = some s) :
    readField (renderOutCell c) = outToOrig c := by
  cases c with
  | na => rfl
  | int n => exact readField_intRepr n
  | str s => exact hs s rfl

lemma processColumn_str_mem {col : List (Option String)} {s : String}
    (h : OutCell.str s ∈ (processColumn col).1) : some s ∈ col := by
  unfold processColumn safe_object_to_numeric_int64 at h
  by_cases hint : is_integer_like (col.map coerceCell) = true
  · rw [if_pos hint] at h
    dsimp only at h
    rw [List.mem_map] at h
    obtain ⟨x, _, hx⟩ := h
    cases x <;> simp [outCellOfInt] at hx
  · rw [Bool.not_eq_true] at hint
    simp only [hint, Bool.false_eq_true, if_false] at h
    rw [List.mem_map] at h
    obtain ⟨c, hc, hcs⟩ := h
    cases c with
    | none => simp [outCellOfOrig] at hcs
    | some t =>
      have ht : t = s := by simpa [outCellOfOrig] using hcs
      exact ht ▸ hc

/-- Re-reading the CSV written from a processed table recovers exactly that
table, cell by cell (under the invariants that hold for every table the
script writes: uniform column length, stable text cells, stable names). -/
lemma readCSV_toCSVproc (out : List (String × List OutCell))
    (hname : ∀ c ∈ out, dropLeadingSpaces c.1 = c.1)
    (hlen : ∀ c ∈ out, c.2.length = numRowsProc out)
    (hstab : ∀ c ∈ out, ∀ s, OutCell.str s ∈ c.2 → readField s = some s) :
    readCSV (toCSVproc out) = out.map (fun c => (c.1, c.2.map outToOrig)) := by
  unfold toCSVproc readCSV
  apply List.ext_getElem
  · simp
  · intro j h1 h2
    rw [List.getElem_map, List.getElem_map, List.getElem_range]
    have hj : j < out.length := by simpa using h2
    have hjm : j < (out.map Prod.fst).length := by simpa using hj
    rw [Prod.mk.injEq]
    refine ⟨?_, ?_⟩
    · rw [List.getD_eq_getElem?_getD, List.getElem?_eq_getElem hjm,
        Option.getD_some, List.getElem_map]
      exact hname out[j] (List.getElem_mem hj)
    · rw [List.map_map]
      apply List.ext_getElem
      · simp [hlen out[j] (List.getElem_mem hj)]
      · intro i hi1 hi2
        rw [List.getElem_map, List.getElem_map, List.getElem_range]
        simp only [Function.comp]
        have hjr : j < (out.map
            (fun c => renderOutCell (c.2.getD i OutCell.na))).length := by
          simpa using hj
        rw [List.getD_eq_getElem?_getD, List.getElem?_eq_getElem hjr,
          Option.getD_some, List.getElem_map]
        have hil : i < out[j].2.length := by
          rw [hlen out[j] (List.getElem_mem hj)]
          simpa using hi1
        rw [List.getD_eq_getElem?_getD, List.getElem?_eq_getElem hil,
          Option.getD_some]
        exact readField_renderOutCell
          (fun s hs => hstab out[j] (List.getElem_mem hj) s
            (hs ▸ List.getElem_mem hil))

lemma readCSV_name_idem (raw : List (List String)) :
    ∀ c ∈ readCSV raw, dropLeadingSpaces c.1 = c.1 := by
  intro c hc
  cases raw with
  | nil => simp [readCSV] at hc
  | cons header body =>
    unfold readCSV at hc
    rw [List.mem_map] at hc
    obtain ⟨j, _, rfl⟩ := hc
    exact dropLeadingSpaces_idem _

lemma readCSV_cells_length (raw : List (List String)) :
    ∀ c ∈ readCSV raw, c.2.length = raw.tail.length := by
  intro c hc
  cases raw with
  | nil => simp [readCSV] at hc
  | cons header body =>
    unfold readCSV at hc
    rw [List.mem_map] at hc
    obtain ⟨j, _, rfl⟩ := hc
    simp

lemma readCSV_stable (raw : List (List String)) :
    ∀ c ∈ readCSV raw, ∀ s, some s ∈ c.2 → readField s = some s := by
  intro c hc s hs
  cases raw with
  | nil => simp [readCSV] at hc
  | cons header body =>
    unfold readCSV at hc
    rw [List.mem_map] at hc
    obtain ⟨j, _, rfl⟩ := hc
    dsimp only at hs
    obtain ⟨r, _, hrs⟩ := List.mem_map.1 hs
    exact readField_idem hrs

/-! ## Claims -/

/-- C1: behaviour of the code at the failing input.  A column containing the
non-numeric, non-missing cell `Private` between the numeric cells `1` and `3`
is NOT left unchanged: `pd.to_numeric(..., errors='coerce')` turns `Private`
into NaN, `is_integer_like` drops that NaN before checking, the unused
`orig_na` mask never vetoes the conversion, and the column is cast to `Int64`
with `Private` silently destroyed into a missing value — contradicting the
claim and the module docstring ("safely convertible to integers without
introducing new invalids (beyond `?`)"). -/
theorem C1_code_behavior :
    processColumn [some "1", some "Private", some "3"]
      = ([OutCell.int 1, OutCell.na, OutCell.int 3], true) := by
  with_unfolding_all decide

/-- C2 counterexample: on the column `["1", "2.5"]` — all cells numeric, one
with a fractional part — the code does not perform the claimed Float rewrite:
the column keeps its original text cells and is not reported changed. -/
theorem C2_counterexample :
    ¬ specFloatRewritten (processColumn [some "1", some "2.5"]) ∧
      processColumn [some "1", some "2.5"]
        = ([OutCell.str "1", OutCell.str "2.5"], false) := by
  have hev : processColumn [some "1", some "2.5"]
      = ([OutCell.str "1", OutCell.str "2.5"], false) := by
    with_unfolding_all decide
  refine ⟨fun h => ?_, hev⟩
  have h2 := h.1
  rw [hev] at h2
  exact Bool.false_ne_true h2

/-- C3 counterexample: a non-empty column made only of `?` markers is not
classified Unchanged: the code converts it to an all-missing `Int64` column
and reports it as changed. -/
theorem C3_counterexample :
    processColumn [some "?", some "?"]
        ≠ ([OutCell.str "?", OutCell.str "?"], false) ∧
      processColumn [some "?", some "?"]
        = ([OutCell.na, OutCell.na], true) := by with_unfolding_all decide

/-- C4 counterexample: overwriting run on an input whose data cell is `?`
preceded by a space.  The backup the code writes is `df.to_csv` of the
already-parsed dataframe, in which `skipinitialspace` has eaten the space, so
the backup's bytes differ from the pre-run input's bytes. -/
theorem C4_counterexample :
    (mainRun "in.csv" "in.csv" fsC4).fs "in.csv.bak" = some [["a"], ["?"]] ∧
      ((mainRun "in.csv" "in.csv" fsC4).fs "in.csv.bak").map renderCSV
        ≠ some (renderCSV [["a"], [" ?"]]) := by with_unfolding_all decide

/-- C5 counterexample: running the script a second time on the output of the
first run over a one-column integer table reports the column converted again
— the change report of the second run is `["a"]`, not empty. -/
theorem C5_counterexample :
    (mainRun "t.csv" "t.csv" (mainRun "t.csv" "t.csv" fsC5).fs).converted
        = ["a"] ∧
      (mainRun "t.csv" "t.csv" (mainRun "t.csv" "t.csv" fsC5).fs).converted
        ≠ ([] : List String) := by with_unfolding_all decide

/-- C6 counterexample: the value `3 - 1e-12` deviates from the nearest
integer by `1e-12 ≤ 1e-9`, so the claim counts it whole; but `np.modf` gives
it fractional part `1 - 1e-12`, which `np.isclose(., 0)` rejects, and the
code's whole-number test (hence `is_integer_like`) rejects the value. -/
theorem C6_counterexample :
    is_integer_like [some ((3 : ℚ) - 1 / 10 ^ 12)] = false ∧
      isclose (fracPart ((3 : ℚ) - 1 / 10 ^ 12)) 0 = false ∧
      |((3 : ℚ) - 1 / 10 ^ 12) - ((3 : ℤ) : ℚ)| ≤ 1 / 10 ^ 9 := by
  with_unfolding_all decide

/-- C2 (amended): for every column in which all non-missing cells parse as
numbers and at least one parsed value has a fractional part rejected by the
`np.isclose(., 0)` whole-number test, the code performs no Float rewrite: the
column keeps its original text cells and is not reported changed (the script
has no Float classification at all). -/
theorem C2_fractional_left_unchanged (col : List (Option String))
    (_hall : ∀ s, some s ∈ col → s ≠ "?" → (parseNum s).isSome = true)
    (hfrac : ∃ q, some q ∈ col.map coerceCell ∧ isclose (fracPart q) 0 = false) :
    processColumn col = (col.map outCellOfOrig, false) := by
  obtain ⟨q, hq, hbad⟩ := hfrac
  have hfalse := is_integer_like_eq_false_of_bad hq hbad
  unfold processColumn safe_object_to_numeric_int64
  simp [hfalse]

/-- Witness for C2 (amended) at the column `["1", "2.5"]`. -/
theorem C2_fractional_left_unchanged_witness :
    processColumn [some "1", some "2.5"]
      = ([some "1", some "2.5"].map outCellOfOrig, false) := by
  refine C2_fractional_left_unchanged _ ?_ ?_
  · intro s hs hne
    have hs12 : s = "1" ∨ s = "2.5" := by simpa using hs
    rcases hs12 with h | h <;> rw [h] <;> with_unfolding_all decide
  · exact ⟨5 / 2, by with_unfolding_all decide⟩

/-- C3 (amended): a non-empty column whose cells are all missing markers is
NOT classified Unchanged: `is_integer_like` is vacuously true on it, so the
code converts it to an all-missing `Int64` column and reports it changed. -/
theorem C3_all_missing_converted (col : List (Option String)) (hne : col ≠ [])
    (hm : ∀ c ∈ col, isMissingMarker c = true) :
    processColumn col = (col.map (fun _ => OutCell.na), true) := by
  have hcoerce : ∀ x ∈ col.map coerceCell, x = none := by
    intro x hx
    obtain ⟨c, hc, rfl⟩ := List.mem_map.1 hx
    exact coerceCell_of_missingMarker (hm c hc)
  have hint : is_integer_like (col.map coerceCell) = true :=
    is_integer_like_all_none (by simpa using hne) hcoerce
  unfold processColumn safe_object_to_numeric_int64
  simp only [hint, if_pos]
  rw [List.map_map, List.map_map]
  refine congrArg (fun l => (l, true)) (List.map_congr_left ?_)
  intro c hc
  simp [Function.comp, coerceCell_of_missingMarker (hm c hc), outCellOfInt]

/-- Witness for C3 (amended) at the column `["?", " ? "]` (a bare marker and
a whitespace-padded one). -/
theorem C3_all_missing_converted_witness :
    processColumn [some "?", some "? "]
      = ([some "?", some "? "].map (fun _ => OutCell.na), true) :=
  C3_all_missing_converted _ (by simp) (by with_unfolding_all decide)

lemma processColumn_length (col : List (Option String)) :
    (processColumn col).1.length = col.length := by
  unfold processColumn safe_object_to_numeric_int64
  by_cases hint : is_integer_like (col.map coerceCell)
  · simp [hint]
  · simp [hint]

lemma processColumn_unchanged_eq {col : List (Option String)}
    (h : (processColumn col).2 = false) :
    (processColumn col).1 = col.map outCellOfOrig := by
  unfold processColumn safe_object_to_numeric_int64 at h ⊢
  by_cases hint : is_integer_like (col.map coerceCell)
  · simp [hint] at h
  · simp [hint]

/-- C7: a cell that is an empty field, `?`, or `?` padded with whitespace is
treated as missing: it coerces to NaN (so the whole-number check, which runs
on the NaN-dropped coerced series, never sees it — dropping it from the
column leaves the checked series unchanged), and in a column the code
converts, its output cell is the missing value `<NA>`, which is written to
CSV as an empty field, never as a number. -/
theorem C7_missing_markers (c : Option String) (h : isMissingMarker c = true) :
    coerceCell c = none ∧
      (∀ pre post : List (Option String),
        ((pre ++ c :: post).map coerceCell).filterMap id
          = ((pre ++ post).map coerceCell).filterMap id) ∧
      (∀ col : List (Option String), ∀ i : ℕ, col[i]? = some c →
        (processColumn col).2 = true →
        (processColumn col).1[i]? = some OutCell.na) ∧
      renderOutCell OutCell.na = "" := by
  have h1 : coerceCell c = none := coerceCell_of_missingMarker h
  refine ⟨h1, ?_, ?_, rfl⟩
  · intro pre post
    simp [List.filterMap_append, h1]
  · intro col i hget hconv
    unfold processColumn safe_object_to_numeric_int64 at hconv ⊢
    by_cases hint : is_integer_like (col.map coerceCell)
    · simp [hint, List.getElem?_map, hget, h1, outCellOfInt]
    · simp [hint] at hconv

/-- Witness for C7 at the trailing-whitespace-padded marker `"? "` sitting in
a column the code converts. -/
theorem C7_missing_markers_witness :
    coerceCell (some "? ") = none ∧
      (([some "1"] ++ some "? " :: []).map coerceCell).filterMap id
        = (([some "1"] ++ ([] : List (Option String))).map coerceCell).filterMap id ∧
      (processColumn [some "1", some "? "]).2 = true ∧
      (processColumn [some "1", some "? "]).1[1]? = some OutCell.na ∧
      renderOutCell OutCell.na = "" := by
  have h := C7_missing_markers (some "? ") (by with_unfolding_all decide)
  have hconv : (processColumn [some "1", some "? "]).2 = true := by
    with_unfolding_all decide
  exact ⟨h.1, h.2.1 [some "1"] [], hconv,
    h.2.2.1 [some "1", some "? "] 1 rfl hconv, h.2.2.2⟩

/-- C8: the coercion preserves the number of columns, every column's length
(row count), and row order; a column it leaves Unchanged keeps exactly its
input cells at every row index. -/
theorem C8_rows_preserved (cols : List (String × List (Option String))) :
    (coerceTable cols).1.length = cols.length ∧
      ∀ j : ℕ, ∀ nc : String × List (Option String), cols[j]? = some nc →
        (coerceTable cols).1[j]? = some (nc.1, (processColumn nc.2).1) ∧
        (processColumn nc.2).1.length = nc.2.length ∧
        ((processColumn nc.2).2 = false →
          (processColumn nc.2).1 = nc.2.map outCellOfOrig) := by
  refine ⟨by simp [coerceTable], ?_⟩
  intro j nc hj
  refine ⟨?_, processColumn_length nc.2, fun hf => processColumn_unchanged_eq hf⟩
  simp [coerceTable, List.getElem?_map, hj]

/-- Witness for C8 at a one-column table the code leaves unchanged. -/
theorem C8_rows_preserved_witness :
    (coerceTable [("a", [some "2.5", some "Male"])]).1.length = 1 ∧
      (coerceTable [("a", [some "2.5", some "Male"])]).1[0]?
        = some ("a", (processColumn [some "2.5", some "Male"]).1) ∧
      (processColumn [some "2.5", some "Male"]).1.length
        = [some "2.5", some "Male"].length ∧
      (processColumn [some "2.5", some "Male"]).1
        = [some "2.5", some "Male"].map outCellOfOrig := by
  have h := (C8_rows_preserved [("a", [some "2.5", some "Male"])]).2 0
    ("a", [some "2.5", some "Male"]) rfl
  exact ⟨(C8_rows_preserved [("a", [some "2.5", some "Male"])]).1, h.1, h.2.1,
    h.2.2 (by with_unfolding_all decide)⟩

/-- C9: when the input path does not exist the run reports exit status 1, an
empty conversion report, and leaves every file untouched (no output, no
backup). -/
theorem C9_missing_input (inPath outPath : String) (fs : FileSys)
    (h : fs inPath = none) :
    (mainRun inPath outPath fs).exitCode = 1 ∧
      (mainRun inPath outPath fs).converted = [] ∧
      ∀ p, (mainRun inPath outPath fs).fs p = fs p := by
  unfold mainRun
  rw [h]
  exact ⟨rfl, rfl, fun p => rfl⟩

/-- Witness for C9 on an empty file system: exit status 1, empty report, and
neither the output path nor the backup path was written. -/
theorem C9_missing_input_witness :
    (mainRun "adult.csv" "out.csv" (fun _ => none)).exitCode = 1 ∧
      (mainRun "adult.csv" "out.csv" (fun _ => none)).converted = [] ∧
      (mainRun "adult.csv" "out.csv" (fun _ => none)).fs "out.csv" = none ∧
      (mainRun "adult.csv" "out.csv" (fun _ => none)).fs "out.csv.bak" = none :=
  ⟨(C9_missing_input "adult.csv" "out.csv" (fun _ => none) rfl).1,
   (C9_missing_input "adult.csv" "out.csv" (fun _ => none) rfl).2.1,
   (C9_missing_input "adult.csv" "out.csv" (fun _ => none) rfl).2.2 "out.csv",
   (C9_missing_input "adult.csv" "out.csv" (fun _ => none) rfl).2.2 "out.csv.bak"⟩

/-- C10: on a zero-row table every column is empty, `is_integer_like` is
`False` on the empty series, so no column is converted and the change report
is empty. -/
theorem C10_zero_rows (cols : List (String × List (Option String)))
    (h : ∀ nc ∈ cols, nc.2 = ([] : List (Option String))) :
    is_integer_like ([] : List (Option ℚ)) = false ∧
      coerceTable cols
        = (cols.map (fun nc => (nc.1, ([] : List OutCell))), []) := by
  have hp : ∀ nc ∈ cols, processColumn nc.2 = ([], false) := by
    intro nc hnc
    rw [h nc hnc]
    rfl
  refine ⟨rfl, ?_⟩
  unfold coerceTable
  have h1 : cols.map (fun nc => (nc.1, (processColumn nc.2).1))
      = cols.map (fun nc => (nc.1, ([] : List OutCell))) := by
    refine List.map_congr_left ?_
    intro nc hnc
    rw [hp nc hnc]
  have h2 : cols.filter (fun nc => (processColumn nc.2).2) = [] := by
    rw [List.filter_eq_nil_iff]
    intro nc hnc
    rw [hp nc hnc]
    simp
  rw [h1, h2]
  rfl

/-- Witness for C10 at a two-column zero-row table. -/
theorem C10_zero_rows_witness :
    is_integer_like ([] : List (Option ℚ)) = false ∧
      coerceTable [("a", ([] : List (Option String))), ("b", [])]
        = ([("a", ([] : List (Option String))), ("b", [])].map
            (fun nc => (nc.1, ([] : List OutCell))), []) :=
  C10_zero_rows [("a", ([] : List (Option String))), ("b", [])] (by simp)

/-- C6 (amended): the whole-number test the code applies to a parsed value is
`np.isclose(np.modf(x)[0], 0)`: it accepts exactly the values whose modf
fractional part (taken toward zero) is at most numpy's default absolute
tolerance `1e-8` in magnitude.  The deviation is not measured from the
nearest integer, so a value just below a positive integer (such as
`3 - 1e-12`, see the counterexample) is rejected. -/
theorem C6_whole_test_is_modf_isclose (x : ℚ) :
    is_integer_like [some x] = true ↔ |fracPart x| ≤ 1 / 10 ^ 8 := by
  have h1 : is_integer_like [some x] = isclose (fracPart x) 0 := by
    simp [is_integer_like]
  rw [h1]
  unfold isclose
  rw [decide_eq_true_eq]
  norm_num

/-- C4 (amended): on an overwriting run whose input exists, if no backup
exists yet then a backup is created at `<path>.bak` holding the re-serialized
parsed input table (`df.to_csv` of the parsed dataframe — not a byte copy of
the input file, see the counterexample); an already-existing backup is never
overwritten. -/
theorem C4_backup_once (inPath : String) (fs : FileSys)
    (raw : List (List String)) (hin : fs inPath = some raw) :
    (fs (inPath ++ ".bak") = none →
      (mainRun inPath inPath fs).fs (inPath ++ ".bak")
        = some (toCSVdf (readCSV raw))) ∧
    (∀ b, fs (inPath ++ ".bak") = some b →
      (mainRun inPath inPath fs).fs (inPath ++ ".bak") = some b) := by
  have hne : inPath ++ ".bak" ≠ inPath := by
    intro he
    have hl := congrArg String.length he
    rw [String.length_append] at hl
    have h4 : (".bak" : String).length = 4 := rfl
    omega
  unfold mainRun
  rw [hin]
  constructor
  · intro hb
    rw [hb]
    dsimp only
    rw [if_pos (rfl : inPath = inPath)]
    unfold fsUpdate
    rw [if_neg hne, if_pos (rfl : inPath ++ ".bak" = inPath ++ ".bak")]
  · intro b hb
    rw [hb]
    dsimp only
    rw [if_pos (rfl : inPath = inPath)]
    unfold fsUpdate
    rw [if_neg hne]
    exact hb

/-- Witness for C4 (amended) on the concrete file system `fsC4` (no backup
present yet): after the run, the backup path holds the re-serialized parsed
input table. -/
theorem C4_backup_once_witness :
    fsC4 ("in.csv" ++ ".bak") = none ∧
      (mainRun "in.csv" "in.csv" fsC4).fs ("in.csv" ++ ".bak")
        = some (toCSVdf (readCSV [["a"], [" ?"]])) :=
  ⟨rfl, (C4_backup_once "in.csv" fsC4 [["a"], [" ?"]] rfl).1 rfl⟩

/-- C5 (amended): running the coercion a second time on the CSV written by
the first run reproduces the first run exactly — same table AND the same
change report.  The report is therefore NOT empty on the second run: every
column that converted on the first run is reported converted again on every
run (see the counterexample); only the cell values are idempotent. -/
theorem C5_second_run_reproduces_first (raw : List (List String)) :
    coerceTable (readCSV (toCSVproc (coerceTable (readCSV raw)).1))
      = coerceTable (readCSV raw) := by
  have hout : (coerceTable (readCSV raw)).1
      = (readCSV raw).map (fun nc => (nc.1, (processColumn nc.2).1)) := rfl
  by_cases hnil : readCSV raw = []
  · rw [hout, hnil]
    rfl
  · have hWFname : ∀ c ∈ (coerceTable (readCSV raw)).1,
        dropLeadingSpaces c.1 = c.1 := by
      rw [hout]
      intro c hc
      obtain ⟨nc, hnc, rfl⟩ := List.mem_map.1 hc
      exact readCSV_name_idem raw nc hnc
    have hlenAll : ∀ c ∈ (coerceTable (readCSV raw)).1,
        c.2.length = raw.tail.length := by
      rw [hout]
      intro c hc
      obtain ⟨nc, hnc, rfl⟩ := List.mem_map.1 hc
      show (processColumn nc.2).1.length = raw.tail.length
      rw [processColumn_length]
      exact readCSV_cells_length raw nc hnc
    have hnum : numRowsProc (coerceTable (readCSV raw)).1 = raw.tail.length := by
      obtain ⟨c0, rest, hc0⟩ := List.exists_cons_of_ne_nil hnil
      rw [hout, hc0, List.map_cons]
      show (processColumn c0.2).1.length = raw.tail.length
      rw [processColumn_length]
      exact readCSV_cells_length raw c0 (by rw [hc0]; exact List.mem_cons_self c0 rest)
    have hWFlen : ∀ c ∈ (coerceTable (readCSV raw)).1,
        c.2.length = numRowsProc (coerceTable (readCSV raw)).1 := by
      intro c hc
      rw [hlenAll c hc, hnum]
    have hWFstab : ∀ c ∈ (coerceTable (readCSV raw)).1,
        ∀ s, OutCell.str s ∈ c.2 → readField s = some s := by
      rw [hout]
      intro c hc s hs
      obtain ⟨nc, hnc, rfl⟩ := List.mem_map.1 hc
      exact readCSV_stable raw nc hnc s (processColumn_str_mem hs)
    rw [readCSV_toCSVproc _ hWFname hWFlen hWFstab, hout, List.map_map]
    show coerceTable ((readCSV raw).map
        (fun nc => (nc.1, (processColumn nc.2).1.map outToOrig)))
      = coerceTable (readCSV raw)
    unfold coerceTable
    rw [Prod.mk.injEq]
    refine ⟨?_, ?_⟩
    · rw [List.map_map]
      apply List.map_congr_left
      intro nc _
      simp only [Function.comp]
      rw [Prod.mk.injEq]
      exact ⟨rfl, congrArg Prod.fst (processColumn_outToOrig nc.2)⟩
    · rw [List.filter_map]
      have hfil : (readCSV raw).filter
            ((fun nc : String × List (Option String) => (processColumn nc.2).2)
              ∘ (fun nc : String × List (Option String) =>
                  (nc.1, (processColumn nc.2).1.map outToOrig)))
          = (readCSV raw).filter (fun nc => (processColumn nc.2).2) := by
        apply List.filter_congr
        intro nc _
        simp only [Function.comp]
        exact congrArg Prod.snd (processColumn_outToOrig nc.2)
      rw [hfil, List.map_map]
      apply List.map_congr_left
      intro nc _
      rfl

end AdultCsv
